import Mathlib

/-!
Verification of the TETRA base-station bit-level codec engine: the bit
cursor buffer, the delimiter protocol, and the Type-2 / Type-3 / Type-4
element framing codecs from `src/common/typed_pdu_fields.rs`, together
with two PDU parsers built on them
(`u_attach_detach_group_identity_acknowledgement.rs`,
`d_attach_detach_group_identity_acknowledgement.rs`).

The `BitBuffer` type itself (`src/common/bitbuffer.rs`) is not present in
the source tree; it is modelled from the specification's §4.1 "Bit Cursor
Buffer" description: a byte-backed bit sequence with a cursor, consuming
reads that fail atomically, non-consuming peeks, relative seek, and
appending writes. Bits are modelled as `List Bool` (most significant bit
first within a field) and field values as `Nat`.

Rust `panic!` sites (the unreachable catch-all arm of `check_peek_mbit`,
and the debug-build underflow of the `usize` subtraction `len_bits - 6`
in `parse_type4_header_generic`) are modelled by an `Option` layer:
`none` is a panic, `some r` is a normal return of `r`.
-/

namespace Tetra

/-- Value of a bit string, most significant bit first. -/
def bitsToNat (l : List Bool) : Nat :=
  l.foldl (fun acc b => 2 * acc + (if b then 1 else 0)) 0

/-- The `w`-bit big-endian encoding of `v % 2 ^ w`. -/
def natToBits : Nat → Nat → List Bool
  | 0, _ => []
  | w + 1, v => natToBits w (v / 2) ++ [v % 2 == 1]

/-- Modelled from the spec: the Bit Cursor Buffer of §4.1, an ordered bit
sequence plus a current bit cursor position (`bitbuffer.rs` is absent
from the source tree). -/
structure BitBuffer where
  bits : List Bool
  pos : Nat
deriving DecidableEq, Repr

/-- Error taxonomy of `src/common/pdu_parse_error.rs`. -/
inductive PduParseError where
  | InvalidPduType (expected found : Nat)
  | BufferEnded (field : String)
  | InvalidObitValue
  | InvalidType3ElemId (found : Nat)
  | InvalidValue (field : String) (value : Nat)
deriving DecidableEq, Repr

/-- Error taxonomy of the Type-3/4 codec (`type34::Type34Err`). -/
inductive Type34Err where
  | FieldNotPresent
  | InvalidId
  | OutOfBounds
deriving DecidableEq, Repr

namespace BitBuffer

/-- Number of unread bits at the cursor. -/
def remaining (b : BitBuffer) : Nat := b.bits.length - b.pos

/-- Modelled from the spec: `peek_bits(width)`, the same extraction as
`read_field` but never advancing the cursor; `none` if fewer than
`width` bits remain. -/
def peek_bits (b : BitBuffer) (width : Nat) : Option Nat :=
  if b.pos + width ≤ b.bits.length then
    some (bitsToNat ((b.bits.drop b.pos).take width))
  else none

/-- Modelled from the spec: `peek_bits_posoffset(skip, width)`, peeking
`width` bits located `skip` bits ahead of the cursor, without
advancing. -/
def peek_bits_posoffset (b : BitBuffer) (skip width : Nat) : Option Nat :=
  if b.pos + skip + width ≤ b.bits.length then
    some (bitsToNat ((b.bits.drop (b.pos + skip)).take width))
  else none

/-- Modelled from the spec: `seek_rel(delta)` advances the cursor by
`delta` bits with no value extraction. -/
def seek_rel (b : BitBuffer) (delta : Nat) : BitBuffer :=
  { b with pos := b.pos + delta }

/-- Modelled from the spec: the consuming read used by the Type-3/4
codec; extracts like `peek_bits` and advances on success, leaving the
buffer untouched on failure (atomic field access). -/
def read_bits (b : BitBuffer) (width : Nat) : Option Nat × BitBuffer :=
  match b.peek_bits width with
  | some v => (some v, b.seek_rel width)
  | none => (none, b)

/-- Modelled from the spec: `read_field(width, field_name)` consumes
`width` bits, failing with `BufferEnded` naming the field when fewer
than `width` bits remain, with the cursor unchanged on failure. -/
def read_field (b : BitBuffer) (width : Nat) (field : String) :
    Except PduParseError Nat × BitBuffer :=
  match b.peek_bits width with
  | some v => (.ok v, b.seek_rel width)
  | none => (.error (.BufferEnded field), b)

/-- Modelled from the spec: `write_bits(value, width)` appends `width`
bits of `value`, right-justified, most significant bit first
(auto-expanding encode mode). -/
def write_bits (b : BitBuffer) (v : Nat) (width : Nat) : BitBuffer :=
  { b with bits := b.bits ++ natToBits width v }

/-- Modelled from the spec: `write_bit(value)` appends one bit. -/
def write_bit (b : BitBuffer) (v : Nat) : BitBuffer :=
  { b with bits := b.bits ++ [v % 2 == 1] }

end BitBuffer

/-- Bits of a `'0'`/`'1'` fixture string (the test fixture format of
spec §6, `BitBuffer::from_bitstr`). -/
def bitsOfString (s : String) : List Bool :=
  s.toList.map (fun c => c == '1')

namespace delimiters

/-- Read the o-bit between type1 and type2/type3 elements
(`delimiters::read_obit`). -/
def read_obit (b : BitBuffer) : Except PduParseError Bool × BitBuffer :=
  match b.read_field 1 (r"obit") with
  | (.ok v, b') => (.ok (v == 1), b')
  | (.error e, b') => (.error e, b')

/-- Write the o-bit (`delimiters::write_obit`). -/
def write_obit (b : BitBuffer) (v : Nat) : BitBuffer :=
  b.write_bit v

/-- Read a p-bit preceding a type2 element (`delimiters::read_pbit`). -/
def read_pbit (b : BitBuffer) : Except PduParseError Bool × BitBuffer :=
  match b.read_field 1 (r"pbit") with
  | (.ok v, b') => (.ok (v == 1), b')
  | (.error e, b') => (.error e, b')

/-- Write the p-bit preceding a type2 element
(`delimiters::write_pbit`). -/
def write_pbit (b : BitBuffer) (v : Nat) : BitBuffer :=
  b.write_bit v

/-- Read an m-bit found before a type3 or type4 element, and trailing
the message (`delimiters::read_mbit`). -/
def read_mbit (b : BitBuffer) : Except PduParseError Bool × BitBuffer :=
  match b.read_field 1 (r"mbit") with
  | (.ok v, b') => (.ok (v == 1), b')
  | (.error e, b') => (.error e, b')

/-- Write the m-bit before a type3 or type4 element, and trailing the
message (`delimiters::write_mbit`). -/
def write_mbit (b : BitBuffer) (v : Nat) : BitBuffer :=
  b.write_bit v

end delimiters

namespace type2

/-- One Type-2 element decode (`type2::parse`): a p-bit, then, when the
p-bit is 1, `num_bits` bits of value. -/
def parse (b : BitBuffer) (num_bits : Nat) (field : String) :
    Except PduParseError (Option Nat) × BitBuffer :=
  match delimiters.read_pbit b with
  | (.ok true, b') =>
    match b'.read_field num_bits field with
    | (.ok v, b'') => (.ok (some v), b'')
    | (.error e, b'') => (.error e, b'')
  | (.ok false, b') => (.ok none, b')
  | (.error e, b') => (.error e, b')

/-- One Type-2 element encode (`type2::write`): if `value` is `some v`,
writes p-bit 1 then `len` bits of `v`; if `none`, writes p-bit 0. -/
def write (b : BitBuffer) (value : Option Nat) (len : Nat) : BitBuffer :=
  match value with
  | some v => (delimiters.write_pbit b 1).write_bits v len
  | none => delimiters.write_pbit b 0

end type2

namespace type34

/-- Read the m-bit for a type3 or type4 element without advancing the
buffer position (`type34::check_peek_mbit`). The source's catch-all
`panic!()` arm is the `none` result. -/
def check_peek_mbit (b : BitBuffer) : Option (Except Type34Err Bool) :=
  match b.peek_bits 1 with
  | some 0 => some (.error .FieldNotPresent)
  | some 1 => some (.ok true)
  | none => some (.error .OutOfBounds)
  | some _ => none

/-- Peek the 4-bit element identifier one bit ahead of the cursor and
compare it with `expected_id` (`type34::check_peek_id`). -/
def check_peek_id (b : BitBuffer) (expected_id : Nat) :
    Except Type34Err Unit :=
  match b.peek_bits_posoffset 1 4 with
  | none => .error .OutOfBounds
  | some id_bits =>
    if id_bits == expected_id then .ok () else .error .FieldNotPresent

/-- Generic Type-3 element decode (`type34::parse_type3_generic`):
non-consuming m-bit and identifier lookahead, then a 5-bit seek, an
11-bit length field and a length-sized payload read. -/
def parse_type3_generic (b : BitBuffer) (expected_id : Nat) :
    Option (Except Type34Err (Nat × Nat) × BitBuffer) :=
  match check_peek_mbit b with
  | none => none
  | some (.error e) => some (.error e, b)
  | some (.ok _) =>
    match check_peek_id b expected_id with
    | .error e => some (.error e, b)
    | .ok _ =>
      let b₁ := b.seek_rel 5
      match b₁.read_bits 11 with
      | (none, b₂) => some (.error .OutOfBounds, b₂)
      | (some len_bits, b₂) =>
        match b₂.read_bits len_bits with
        | (none, b₃) => some (.error .OutOfBounds, b₃)
        | (some data, b₃) => some (.ok (len_bits, data), b₃)

/-- Generic Type-4 header decode (`type34::parse_type4_header_generic`):
lookahead as for Type-3, then an 11-bit total length and a 6-bit
element count; returns `(count, total_length - 6)`. The `usize`
subtraction `len_bits - 6` underflows when `len_bits < 6`; that
debug-build panic is the `none` result. -/
def parse_type4_header_generic (b : BitBuffer) (expected_id : Nat) :
    Option (Except Type34Err (Nat × Nat) × BitBuffer) :=
  match check_peek_mbit b with
  | none => none
  | some (.error e) => some (.error e, b)
  | some (.ok _) =>
    match check_peek_id b expected_id with
    | .error e => some (.error e, b)
    | .ok _ =>
      let b₁ := b.seek_rel 5
      match b₁.read_bits 11 with
      | (none, b₂) => some (.error .OutOfBounds, b₂)
      | (some len_bits, b₂) =>
        match b₂.read_bits 6 with
        | (none, b₃) => some (.error .OutOfBounds, b₃)
        | (some num_elems, b₃) =>
          if len_bits < 6 then none
          else some (.ok (num_elems, len_bits - 6), b₃)

/-- Generic Type-4 header encode
(`type34::write_type4_header_generic`): m-bit 1 then the 4-bit
identifier. -/
def write_type4_header_generic (b : BitBuffer) (field_type : Nat) :
    BitBuffer :=
  (delimiters.write_mbit b 1).write_bits field_type 4

end type34

/-- Modelled from the spec: the raw discriminant of
`MmPduTypeDl::DAttachDetachGroupIdentityAcknowledgement` (the enum
source file is absent from the tree); the value `0b1011` is fixed by
the repository's fixture annotation. -/
def MmPduTypeDl_DAttachDetachGroupIdentityAcknowledgement : Nat := 11

/-- Modelled from the spec: the raw discriminant of
`MmPduTypeUl::UAttachDetachGroupIdentityAcknowledgement` (enum source
absent); the concrete value does not affect any property proved here. -/
def MmPduTypeUl_UAttachDetachGroupIdentityAcknowledgement : Nat := 10

/-- Modelled from the spec: raw Type-3/4 element identifier of
`MmType34ElemIdDl::GroupIdentityDownlink`, `0x7` per the repository's
fixture annotation. -/
def MmType34ElemIdDl_GroupIdentityDownlink : Nat := 7

/-- Modelled from the spec: raw Type-3/4 element identifier of
`MmType34ElemIdDl::Proprietary` (enum source absent); any tag other
than `0x7` gives the behaviour the fixture exercises. -/
def MmType34ElemIdDl_Proprietary : Nat := 15

/-- Modelled from the spec: raw Type-3/4 element identifier of
`MmType34ElemIdDl::GroupIdentitySecurityRelatedInformation` (enum
source absent). -/
def MmType34ElemIdDl_GroupIdentitySecurityRelatedInformation : Nat := 14

/-- Modelled from the spec: raw Type-3/4 element identifier of
`MmType34ElemIdUl::GroupIdentityUplink` (enum source absent). -/
def MmType34ElemIdUl_GroupIdentityUplink : Nat := 7

/-- Modelled from the spec: raw Type-3/4 element identifier of
`MmType34ElemIdUl::Proprietary` (enum source absent). -/
def MmType34ElemIdUl_Proprietary : Nat := 15

/-- Modelled from the spec: the downlink Type-3 element value of §3
(`type34_fields.rs` is absent): tag, right-justified payload, payload
bit-width. -/
structure MmType3FieldDl where
  field_type : Nat
  data : Nat
  len : Nat
deriving DecidableEq, Repr

/-- Modelled from the spec: `MmType3FieldDl::parse` frames
`parse_type3_generic` with the element identifier and stores the tag,
payload and length. -/
def MmType3FieldDl.parse (b : BitBuffer) (elem : Nat) :
    Option (Except Type34Err MmType3FieldDl × BitBuffer) :=
  match type34.parse_type3_generic b elem with
  | none => none
  | some (.error e, b') => some (.error e, b')
  | some (.ok (len, data), b') => some (.ok ⟨elem, data, len⟩, b')

/-- Modelled from the spec: Type-3 element encode (§4.4): m-bit 1, the
4-bit tag, the 11-bit length, then `len` payload bits. -/
def MmType3FieldDl.write (b : BitBuffer) (field_type data len : Nat) :
    BitBuffer :=
  (((delimiters.write_mbit b 1).write_bits field_type 4).write_bits
    len 11).write_bits data len

/-- Modelled from the spec: the downlink Type-4 container value
(`type34_fields.rs` is absent), stored like a Type-3 element: tag,
payload bits (count field included) and declared 11-bit length. -/
structure MmType4FieldDl where
  field_type : Nat
  data : Nat
  len : Nat
deriving DecidableEq, Repr

/-- Modelled from the spec: `MmType4FieldDl::parse_header` is the
generic Type-4 header decode. -/
def MmType4FieldDl.parse_header (b : BitBuffer) (elem : Nat) :
    Option (Except Type34Err (Nat × Nat) × BitBuffer) :=
  type34.parse_type4_header_generic b elem

/-- Modelled from the spec: `MmType4FieldDl::parse` stores the whole
container opaquely: lookahead as for Type-3, then the 11-bit declared
length and that many bits (6-bit count plus sub-element payload). -/
def MmType4FieldDl.parse (b : BitBuffer) (elem : Nat) :
    Option (Except Type34Err MmType4FieldDl × BitBuffer) :=
  match type34.parse_type3_generic b elem with
  | none => none
  | some (.error e, b') => some (.error e, b')
  | some (.ok (len, data), b') => some (.ok ⟨elem, data, len⟩, b')

/-- Modelled from the spec: opaque Type-4 container encode, symmetric
to `MmType4FieldDl.parse`. -/
def MmType4FieldDl.write (b : BitBuffer) (field_type data len : Nat) :
    BitBuffer :=
  (((delimiters.write_mbit b 1).write_bits field_type 4).write_bits
    len 11).write_bits data len

/-- Modelled from the spec: the uplink Type-3 element value
(`type34_fields.rs` is absent). -/
structure MmType3FieldUl where
  field_type : Nat
  data : Nat
  len : Nat
deriving DecidableEq, Repr

/-- Modelled from the spec: `MmType3FieldUl::parse`, as for the
downlink variant. -/
def MmType3FieldUl.parse (b : BitBuffer) (elem : Nat) :
    Option (Except Type34Err MmType3FieldUl × BitBuffer) :=
  match type34.parse_type3_generic b elem with
  | none => none
  | some (.error e, b') => some (.error e, b')
  | some (.ok (len, data), b') => some (.ok ⟨elem, data, len⟩, b')

/-- Modelled from the spec: the uplink Type-4 container value
(`type34_fields.rs` is absent). -/
structure MmType4FieldUl where
  field_type : Nat
  data : Nat
  len : Nat
deriving DecidableEq, Repr

/-- Modelled from the spec: `MmType4FieldUl::parse`, storing the whole
container opaquely as for the downlink variant. -/
def MmType4FieldUl.parse (b : BitBuffer) (elem : Nat) :
    Option (Except Type34Err MmType4FieldUl × BitBuffer) :=
  match type34.parse_type3_generic b elem with
  | none => none
  | some (.error e, b') => some (.error e, b')
  | some (.ok (len, data), b') => some (.ok ⟨elem, data, len⟩, b')

/-- Modelled from the spec: the Group Identity Downlink sub-element
(`fields/group_identity_downlink.rs` is absent); its field widths
1 + 2 + 3 + 2 + 24 are fixed by the repository's fixture annotation. -/
structure GroupIdentityDownlink where
  attach_detach_type_identifier : Nat
  lifetime : Nat
  class_of_usage : Nat
  group_identity_type_identifier : Nat
  gssi : Nat
deriving DecidableEq, Repr

/-- Modelled from the spec: `GroupIdentityDownlink::from_bitbuf`, five
consecutive fixed-width reads. -/
def GroupIdentityDownlink.from_bitbuf (b : BitBuffer) :
    Except PduParseError GroupIdentityDownlink × BitBuffer :=
  match b.read_field 1 (r"attach_detach_type_identifier") with
  | (.error e, b) => (.error e, b)
  | (.ok adt, b) =>
    match b.read_field 2 (r"lifetime") with
    | (.error e, b) => (.error e, b)
    | (.ok lt, b) =>
      match b.read_field 3 (r"class_of_usage") with
      | (.error e, b) => (.error e, b)
      | (.ok cou, b) =>
        match b.read_field 2 (r"group_identity_type_identifier") with
        | (.error e, b) => (.error e, b)
        | (.ok gti, b) =>
          match b.read_field 24 (r"gssi") with
          | (.error e, b) => (.error e, b)
          | (.ok gssi, b) => (.ok ⟨adt, lt, cou, gti, gssi⟩, b)

/-- Modelled from the spec: `GroupIdentityDownlink::to_bitbuf`, the
mirror of the five fixed-width reads. -/
def GroupIdentityDownlink.to_bitbuf (g : GroupIdentityDownlink)
    (b : BitBuffer) : BitBuffer :=
  ((((b.write_bits g.attach_detach_type_identifier 1).write_bits
    g.lifetime 2).write_bits g.class_of_usage 3).write_bits
    g.group_identity_type_identifier 2).write_bits g.gssi 24

/-- Modelled from the spec: `MmType4FieldDl::write_field` for a Group
Identity Downlink container: the generic header (m-bit 1, 4-bit tag),
the 11-bit total length (6 count bits plus 32 bits per sub-element),
the 6-bit count, then the serialized sub-elements (§4.5). -/
def MmType4FieldDl.write_field (b : BitBuffer) (elem : Nat)
    (elems : List GroupIdentityDownlink) : BitBuffer :=
  let b₁ := type34.write_type4_header_generic b elem
  let b₂ := b₁.write_bits (6 + 32 * elems.length) 11
  let b₃ := b₂.write_bits elems.length 6
  elems.foldl (fun acc g => g.to_bitbuf acc) b₃

/-- The U-ATTACH/DETACH GROUP IDENTITY ACKNOWLEDGEMENT PDU
(`u_attach_detach_group_identity_acknowledgement.rs`). -/
structure UAttachDetachGroupIdentityAcknowledgement where
  group_identity_acknowledgement_type : Bool
  group_identity_uplink : Option MmType4FieldUl
  proprietary : Option MmType3FieldUl
deriving DecidableEq, Repr

/-- Everything `UAttachDetachGroupIdentityAcknowledgement::from_bitbuf`
does before the trailing o-bit check: the PDU type read and check, the
Type-1 field, the o-bit, and the two optional element attempts (their
errors swallowed to absence). Returns the assembled PDU and the o-bit
state reaching the trailing check. -/
def UAttachDetachGroupIdentityAcknowledgement.parse_body (b : BitBuffer) :
    Option (Except PduParseError
      (UAttachDetachGroupIdentityAcknowledgement × Bool) × BitBuffer) :=
  match b.read_field 4 (r"pdu_type") with
  | (.error e, b) => some (.error e, b)
  | (.ok pdu_type, b) =>
    if pdu_type == MmPduTypeUl_UAttachDetachGroupIdentityAcknowledgement then
      match b.read_field 1 (r"group_identity_acknowledgement_type") with
      | (.error e, b) => some (.error e, b)
      | (.ok ack, b) =>
        match delimiters.read_obit b with
        | (.error e, b) => some (.error e, b)
        | (.ok obit, b) =>
          match MmType4FieldUl.parse b MmType34ElemIdUl_GroupIdentityUplink with
          | none => none
          | some (r4, b) =>
            match MmType3FieldUl.parse b MmType34ElemIdUl_Proprietary with
            | none => none
            | some (r3, b) =>
              some (.ok
                (⟨ack ≠ 0, r4.toOption, r3.toOption⟩, obit), b)
    else
      some (.error (.InvalidPduType
        MmPduTypeUl_UAttachDetachGroupIdentityAcknowledgement pdu_type), b)

/-- Parse from BitBuffer
(`UAttachDetachGroupIdentityAcknowledgement::from_bitbuf`): the body,
then the trailing o-bit check rejecting an unexpected trailing `1`. -/
def UAttachDetachGroupIdentityAcknowledgement.from_bitbuf (b : BitBuffer) :
    Option (Except PduParseError
      UAttachDetachGroupIdentityAcknowledgement × BitBuffer) :=
  match UAttachDetachGroupIdentityAcknowledgement.parse_body b with
  | none => none
  | some (.error e, b) => some (.error e, b)
  | some (.ok (pdu, obit), b) =>
    if obit then
      match b.read_field 1 (r"trailing_obit") with
      | (.error e, b) => some (.error e, b)
      | (.ok v, b) =>
        if v == 1 then some (.error .InvalidObitValue, b)
        else some (.ok pdu, b)
    else some (.ok pdu, b)

/-- The D-ATTACH/DETACH GROUP IDENTITY ACKNOWLEDGEMENT PDU
(`d_attach_detach_group_identity_acknowledgement.rs`). -/
structure DAttachDetachGroupIdentityAcknowledgement where
  group_identity_accept_reject : Nat
  reserved : Bool
  proprietary : Option MmType3FieldDl
  group_identity_downlink : Option (List GroupIdentityDownlink)
  group_identity_security_related_information : Option MmType4FieldDl
deriving DecidableEq, Repr

/-- The sub-element loop of
`DAttachDetachGroupIdentityAcknowledgement::from_bitbuf`: `count`
Group Identity Downlink decodes, any failure propagating out of the
whole PDU parse. -/
def readGidElems : Nat → BitBuffer →
    Except PduParseError (List GroupIdentityDownlink) × BitBuffer
  | 0, b => (.ok [], b)
  | n + 1, b =>
    match GroupIdentityDownlink.from_bitbuf b with
    | (.error e, b) => (.error e, b)
    | (.ok g, b) =>
      match readGidElems n b with
      | (.error e, b) => (.error e, b)
      | (.ok gs, b) => (.ok (g :: gs), b)

/-- Everything
`DAttachDetachGroupIdentityAcknowledgement::from_bitbuf` does before
the trailing o-bit check: PDU type, the two Type-1 fields, the o-bit,
the proprietary Type-3 attempt, the Group Identity Downlink Type-4
header and sub-element loop, and the security-related Type-4 attempt. -/
def DAttachDetachGroupIdentityAcknowledgement.parse_body (b : BitBuffer) :
    Option (Except PduParseError
      (DAttachDetachGroupIdentityAcknowledgement × Bool) × BitBuffer) :=
  match b.read_field 4 (r"pdu_type") with
  | (.error e, b) => some (.error e, b)
  | (.ok pdu_type, b) =>
    if pdu_type == MmPduTypeDl_DAttachDetachGroupIdentityAcknowledgement then
      match b.read_field 1 (r"group_identity_accept_reject") with
      | (.error e, b) => some (.error e, b)
      | (.ok gar, b) =>
        match b.read_field 1 (r"reserved") with
        | (.error e, b) => some (.error e, b)
        | (.ok rsv, b) =>
          match delimiters.read_obit b with
          | (.error e, b) => some (.error e, b)
          | (.ok obit, b) =>
            match MmType3FieldDl.parse b MmType34ElemIdDl_Proprietary with
            | none => none
            | some (r3, b) =>
              let cont := fun (gid : Option (List GroupIdentityDownlink))
                  (b : BitBuffer) =>
                match MmType4FieldDl.parse b
                  MmType34ElemIdDl_GroupIdentitySecurityRelatedInformation with
                | none => none
                | some (rs, b) =>
                  some (Except.ok
                    ((⟨gar, rsv ≠ 0, r3.toOption, gid, rs.toOption⟩ :
                      DAttachDetachGroupIdentityAcknowledgement), obit), b)
              match MmType4FieldDl.parse_header b
                MmType34ElemIdDl_GroupIdentityDownlink with
              | none => none
              | some (.ok (num_elems, _len_bits), b) =>
                match readGidElems num_elems b with
                | (.error e, b) => some (.error e, b)
                | (.ok elems, b) => cont (some elems) b
              | some (.error _, b) => cont none b
    else
      some (.error (.InvalidPduType
        MmPduTypeDl_DAttachDetachGroupIdentityAcknowledgement pdu_type), b)

/-- Parse from BitBuffer
(`DAttachDetachGroupIdentityAcknowledgement::from_bitbuf`): the body,
then the trailing o-bit check rejecting an unexpected trailing `1`. -/
def DAttachDetachGroupIdentityAcknowledgement.from_bitbuf (b : BitBuffer) :
    Option (Except PduParseError
      DAttachDetachGroupIdentityAcknowledgement × BitBuffer) :=
  match DAttachDetachGroupIdentityAcknowledgement.parse_body b with
  | none => none
  | some (.error e, b) => some (.error e, b)
  | some (.ok (pdu, obit), b) =>
    if obit then
      match b.read_field 1 (r"trailing_obit") with
      | (.error e, b) => some (.error e, b)
      | (.ok v, b) =>
        if v == 1 then some (.error .InvalidObitValue, b)
        else some (.ok pdu, b)
    else some (.ok pdu, b)

/-- Serialize into a BitBuffer
(`DAttachDetachGroupIdentityAcknowledgement::to_bitbuf`). -/
def DAttachDetachGroupIdentityAcknowledgement.to_bitbuf
    (p : DAttachDetachGroupIdentityAcknowledgement) (b : BitBuffer) :
    BitBuffer :=
  let b₁ := b.write_bits
    MmPduTypeDl_DAttachDetachGroupIdentityAcknowledgement 4
  let b₂ := b₁.write_bits p.group_identity_accept_reject 1
  let b₃ := b₂.write_bits (if p.reserved then 1 else 0) 1
  let obit_val := p.proprietary.isSome ||
    p.group_identity_downlink.isSome ||
    p.group_identity_security_related_information.isSome
  let b₄ := delimiters.write_obit b₃ (if obit_val then 1 else 0)
  if !obit_val then b₄
  else
    let b₅ := match p.proprietary with
      | some v => MmType3FieldDl.write b₄ v.field_type v.data v.len
      | none => b₄
    let b₆ := match p.group_identity_downlink with
      | some elems =>
        MmType4FieldDl.write_field b₅
          MmType34ElemIdDl_GroupIdentityDownlink elems
      | none => b₅
    let b₇ := match p.group_identity_security_related_information with
      | some v => MmType4FieldDl.write b₆ v.field_type v.data v.len
      | none => b₆
    delimiters.write_mbit b₇ 0

/-- The repository's own fixture bitstring ("Vec from lab") for the
D-ATTACH/DETACH GROUP IDENTITY ACKNOWLEDGEMENT decode/encode test. -/
def fixtureBits : List Bool :=
  bitsOfString
    (r"10110011011100000100110000001011100000000110101000110011100000")

/-- The PDU value the fixture decodes to: accept/reject 0, reserved
false, no proprietary element, one Group Identity Downlink sub-element
(lifetime 3, class of usage 4, GSSI 870000), no security-related
container. -/
def fixturePdu : DAttachDetachGroupIdentityAcknowledgement :=
  ⟨0, false, none, some [⟨0, 3, 4, 0, 870000⟩], none⟩

/-- Folding the bit-accumulation step from accumulator `a` scales `a` by
`2 ^ length` and adds the bits' value. -/
theorem foldl_bits (l : List Bool) (a : Nat) :
    l.foldl (fun acc b => 2 * acc + (if b then 1 else 0)) a =
      a * 2 ^ l.length + bitsToNat l := by
  induction l generalizing a with
  | nil => simp [bitsToNat]
  | cons x l ih =>
    have hx : bitsToNat (x :: l) =
        (if x then 1 else 0) * 2 ^ l.length + bitsToNat l := by
      show List.foldl _ ((fun acc b => 2 * acc + (if b then 1 else 0)) 0 x) l = _
      rw [ih]
      ring_nf
    rw [List.foldl_cons, ih, hx]
    simp only [List.length_cons, pow_succ]
    ring

/-- A bit string's value is below `2 ^ length`. -/
theorem bitsToNat_lt (l : List Bool) : bitsToNat l < 2 ^ l.length := by
  induction l with
  | nil => simp [bitsToNat]
  | cons x l ih =>
    have hx : bitsToNat (x :: l) =
        (if x then 1 else 0) * 2 ^ l.length + bitsToNat l := by
      show List.foldl _ ((fun acc b => 2 * acc + (if b then 1 else 0)) 0 x) l = _
      rw [foldl_bits]
      ring_nf
    rw [hx]
    have h2 : (2 : Nat) ^ (x :: l).length = 2 ^ l.length + 2 ^ l.length := by
      simp [List.length_cons, pow_succ]
      ring
    rw [h2]
    rcases x with _ | _ <;> simp <;> omega

/-- Value of a concatenation of bit strings. -/
theorem bitsToNat_append (l₁ l₂ : List Bool) :
    bitsToNat (l₁ ++ l₂) = bitsToNat l₁ * 2 ^ l₂.length + bitsToNat l₂ := by
  show List.foldl _ 0 (l₁ ++ l₂) = _
  rw [List.foldl_append]
  exact foldl_bits l₂ (bitsToNat l₁)

/-- `natToBits` always yields exactly `w` bits. -/
theorem natToBits_length (w v : Nat) : (natToBits w v).length = w := by
  induction w generalizing v with
  | zero => rfl
  | succ w ih => simp [natToBits, ih]

/-- Decoding an encoded value recovers it modulo `2 ^ w`. -/
theorem bitsToNat_natToBits (w v : Nat) :
    bitsToNat (natToBits w v) = v % 2 ^ w := by
  induction w generalizing v with
  | zero => simp [natToBits, bitsToNat, Nat.mod_one]
  | succ w ih =>
    rw [natToBits, bitsToNat_append, ih]
    have hb : bitsToNat [v % 2 == 1] = v % 2 := by
      rcases Nat.mod_two_eq_zero_or_one v with h | h <;> simp [bitsToNat, h]
    rw [hb]
    simp only [List.length_singleton, pow_one]
    have hr : v / 2 % 2 ^ w < 2 ^ w :=
      Nat.mod_lt _ (Nat.pos_pow_of_pos w (by norm_num))
    have hs : v % 2 < 2 := Nat.mod_lt _ (by norm_num)
    have hA : 1 ≤ 2 ^ w := Nat.one_le_two_pow
    rw [pow_succ, Nat.mul_comm (2 ^ w) 2]
    conv_rhs => rw [← Nat.div_add_mod v 2]
    rw [Nat.add_mod, Nat.mul_mod_mul_left,
      Nat.mod_eq_of_lt (by omega : v % 2 < 2 * 2 ^ w),
      Nat.mod_eq_of_lt (by omega : 2 * (v / 2 % 2 ^ w) + v % 2 < 2 * 2 ^ w)]
    ring

/-- Decoding an encoded value that fits recovers it exactly. -/
theorem bitsToNat_natToBits_of_lt {w v : Nat} (h : v < 2 ^ w) :
    bitsToNat (natToBits w v) = v := by
  rw [bitsToNat_natToBits, Nat.mod_eq_of_lt h]

namespace BitBuffer

/-- Peeking the leading segment of the unread suffix extracts its
value. -/
theorem peek_bits_of_suffix (b : BitBuffer) (hp : b.pos ≤ b.bits.length)
    {mid rest : List Bool} (h : b.bits.drop b.pos = mid ++ rest) :
    b.peek_bits mid.length = some (bitsToNat mid) := by
  have hlen : (b.bits.drop b.pos).length = b.bits.length - b.pos :=
    List.length_drop _ _
  rw [h, List.length_append] at hlen
  unfold peek_bits
  rw [if_pos (by omega), h, List.take_left]

/-- Peeking a width longer than the unread suffix yields `none`. -/
theorem peek_bits_none (b : BitBuffer) {w : Nat}
    (h : b.bits.length < b.pos + w) : b.peek_bits w = none := by
  unfold peek_bits
  rw [if_neg (by omega)]

/-- Peeking at an offset skips the first segment of the unread suffix
and extracts the second. -/
theorem peek_bits_posoffset_of_suffix (b : BitBuffer)
    (hp : b.pos ≤ b.bits.length) {pre mid rest : List Bool}
    (h : b.bits.drop b.pos = pre ++ (mid ++ rest)) :
    b.peek_bits_posoffset pre.length mid.length = some (bitsToNat mid) := by
  have hlen : (b.bits.drop b.pos).length = b.bits.length - b.pos :=
    List.length_drop _ _
  rw [h, List.length_append, List.length_append] at hlen
  have hdrop : b.bits.drop (b.pos + pre.length) = mid ++ rest := by
    rw [← List.drop_drop, h, List.drop_left]
  unfold peek_bits_posoffset
  rw [if_pos (by omega), hdrop, List.take_left]

/-- Peeking at an offset past the end of the buffer yields `none`. -/
theorem peek_bits_posoffset_none (b : BitBuffer) {skip w : Nat}
    (h : b.bits.length < b.pos + skip + w) :
    b.peek_bits_posoffset skip w = none := by
  unfold peek_bits_posoffset
  rw [if_neg (by omega)]

/-- Seeking over the leading segment leaves the remainder as the unread
suffix. -/
theorem drop_seek_rel (b : BitBuffer) {mid rest : List Bool}
    (h : b.bits.drop b.pos = mid ++ rest) :
    (b.seek_rel mid.length).bits.drop (b.seek_rel mid.length).pos = rest := by
  show b.bits.drop (b.pos + mid.length) = rest
  rw [← List.drop_drop, h, List.drop_left]

/-- Seeking over the leading segment keeps the cursor inside the
buffer. -/
theorem seek_rel_pos_le (b : BitBuffer) (hp : b.pos ≤ b.bits.length)
    {mid rest : List Bool} (h : b.bits.drop b.pos = mid ++ rest) :
    (b.seek_rel mid.length).pos ≤ (b.seek_rel mid.length).bits.length := by
  have hlen : (b.bits.drop b.pos).length = b.bits.length - b.pos :=
    List.length_drop _ _
  rw [h, List.length_append] at hlen
  show b.pos + mid.length ≤ b.bits.length
  omega

/-- Reading the leading segment of the unread suffix extracts its value
and advances over it. -/
theorem read_bits_of_suffix (b : BitBuffer) (hp : b.pos ≤ b.bits.length)
    {mid rest : List Bool} (h : b.bits.drop b.pos = mid ++ rest) :
    b.read_bits mid.length = (some (bitsToNat mid), b.seek_rel mid.length) := by
  unfold read_bits
  rw [peek_bits_of_suffix b hp h]

/-- Reading past the end of the buffer fails and does not move the
cursor. -/
theorem read_bits_none (b : BitBuffer) {w : Nat}
    (h : b.bits.length < b.pos + w) : b.read_bits w = (none, b) := by
  unfold read_bits
  rw [peek_bits_none b h]

/-- Reading a field over the leading segment of the unread suffix
extracts its value and advances over it. -/
theorem read_field_of_suffix (b : BitBuffer) (hp : b.pos ≤ b.bits.length)
    {mid rest : List Bool} (h : b.bits.drop b.pos = mid ++ rest)
    (field : String) :
    b.read_field mid.length field =
      (.ok (bitsToNat mid), b.seek_rel mid.length) := by
  unfold read_field
  rw [peek_bits_of_suffix b hp h]

/-- Reading a field past the end of the buffer fails with `BufferEnded`
and does not move the cursor. -/
theorem read_field_none (b : BitBuffer) {w : Nat}
    (h : b.bits.length < b.pos + w) (field : String) :
    b.read_field w field = (.error (.BufferEnded field), b) := by
  unfold read_field
  rw [peek_bits_none b h]

/-- Two consecutive seeks add up. -/
theorem seek_rel_seek_rel (b : BitBuffer) (m n : Nat) :
    (b.seek_rel m).seek_rel n = b.seek_rel (m + n) := by
  simp [seek_rel, Nat.add_assoc]

/-- A successful peek of `w` bits yields a value below `2 ^ w`. -/
theorem peek_bits_lt (b : BitBuffer) {w v : Nat}
    (h : b.peek_bits w = some v) : v < 2 ^ w := by
  unfold peek_bits at h
  split at h
  · injection h with h
    subst h
    calc bitsToNat ((b.bits.drop b.pos).take w)
        < 2 ^ ((b.bits.drop b.pos).take w).length := bitsToNat_lt _
      _ ≤ 2 ^ w :=
        Nat.pow_le_pow_right (by norm_num) (List.length_take_le _ _)
  · cases h

end BitBuffer

/-- A leading `true` bit at the cursor makes the m-bit check accept. -/
theorem check_peek_mbit_of_true (b : BitBuffer) (hp : b.pos ≤ b.bits.length)
    {rest : List Bool} (h : b.bits.drop b.pos = true :: rest) :
    type34.check_peek_mbit b = some (.ok true) := by
  have hpk : b.peek_bits 1 = some 1 := by
    have h1 : b.bits.drop b.pos = [true] ++ rest := h
    have := b.peek_bits_of_suffix hp h1
    simpa [bitsToNat] using this
  simp [type34.check_peek_mbit, hpk]

/-- A leading `false` bit at the cursor makes the m-bit check report an
absent field. -/
theorem check_peek_mbit_of_false (b : BitBuffer) (hp : b.pos ≤ b.bits.length)
    {rest : List Bool} (h : b.bits.drop b.pos = false :: rest) :
    type34.check_peek_mbit b = some (.error .FieldNotPresent) := by
  have hpk : b.peek_bits 1 = some 0 := by
    have h1 : b.bits.drop b.pos = [false] ++ rest := h
    have := b.peek_bits_of_suffix hp h1
    simpa [bitsToNat] using this
  simp [type34.check_peek_mbit, hpk]

/-- The identifier peek sees the four bits following the m-bit. -/
theorem peek_id_bits (b : BitBuffer) (hp : b.pos ≤ b.bits.length)
    {m : Bool} {tag4 rest : List Bool}
    (h : b.bits.drop b.pos = m :: (tag4 ++ rest)) (htag : tag4.length = 4) :
    b.peek_bits_posoffset 1 4 = some (bitsToNat tag4) := by
  have h1 : b.bits.drop b.pos = [m] ++ (tag4 ++ rest) := h
  have := b.peek_bits_posoffset_of_suffix hp h1
  simpa [htag] using this

/-- A matching identifier passes the identifier check. -/
theorem check_peek_id_of_suffix (b : BitBuffer) (hp : b.pos ≤ b.bits.length)
    {m : Bool} {tag4 rest : List Bool}
    (h : b.bits.drop b.pos = m :: (tag4 ++ rest)) (htag : tag4.length = 4) :
    type34.check_peek_id b (bitsToNat tag4) = .ok () := by
  have hpk := peek_id_bits b hp h htag
  simp [type34.check_peek_id, hpk]

/-- A mismatched identifier fails the identifier check with
`FieldNotPresent`. -/
theorem check_peek_id_mismatch (b : BitBuffer) (hp : b.pos ≤ b.bits.length)
    {m : Bool} {tag4 rest : List Bool}
    (h : b.bits.drop b.pos = m :: (tag4 ++ rest)) (htag : tag4.length = 4)
    {expected : Nat} (hne : expected ≠ bitsToNat tag4) :
    type34.check_peek_id b expected = .error .FieldNotPresent := by
  have hpk := peek_id_bits b hp h htag
  simp [type34.check_peek_id, hpk]
  omega

/-- Success path of the generic Type-3 decode on a well-formed element
layout at the cursor. -/
theorem parse_type3_ok (b : BitBuffer) (hp : b.pos ≤ b.bits.length)
    {tag4 len11 payload rest : List Bool}
    (h : b.bits.drop b.pos = true :: (tag4 ++ (len11 ++ (payload ++ rest))))
    (htag : tag4.length = 4) (hlen : len11.length = 11)
    (hL : bitsToNat len11 = payload.length) :
    type34.parse_type3_generic b (bitsToNat tag4) =
      some (.ok (payload.length, bitsToNat payload),
        b.seek_rel (16 + payload.length)) := by
  have hmbit := check_peek_mbit_of_true b hp h
  have hid := check_peek_id_of_suffix b hp h htag
  have h5 : b.bits.drop b.pos =
      (true :: tag4) ++ (len11 ++ (payload ++ rest)) := by
    simpa using h
  have h5len : (true :: tag4).length = 5 := by simp [htag]
  have hb1suf : (b.seek_rel 5).bits.drop (b.seek_rel 5).pos =
      len11 ++ (payload ++ rest) := by
    have := b.drop_seek_rel h5
    rwa [h5len] at this
  have hb1pos : (b.seek_rel 5).pos ≤ (b.seek_rel 5).bits.length := by
    have := b.seek_rel_pos_le hp h5
    rwa [h5len] at this
  have hrd11 : (b.seek_rel 5).read_bits 11 =
      (some payload.length, b.seek_rel 16) := by
    have := (b.seek_rel 5).read_bits_of_suffix hb1pos hb1suf
    rw [hlen, hL, BitBuffer.seek_rel_seek_rel] at this
    exact this
  have hb2suf : (b.seek_rel 16).bits.drop (b.seek_rel 16).pos =
      payload ++ rest := by
    have := (b.seek_rel 5).drop_seek_rel hb1suf
    rwa [hlen, BitBuffer.seek_rel_seek_rel] at this
  have hb2pos : (b.seek_rel 16).pos ≤ (b.seek_rel 16).bits.length := by
    have := (b.seek_rel 5).seek_rel_pos_le hb1pos hb1suf
    rwa [hlen, BitBuffer.seek_rel_seek_rel] at this
  have hrdpay : (b.seek_rel 16).read_bits payload.length =
      (some (bitsToNat payload), b.seek_rel (16 + payload.length)) := by
    have := (b.seek_rel 16).read_bits_of_suffix hb2pos hb2suf
    rwa [BitBuffer.seek_rel_seek_rel] at this
  simp only [type34.parse_type3_generic, hmbit, hid, hrd11, hrdpay]

/-- With a 0 m-bit at the cursor the generic Type-3 decode reports an
absent field and does not move the cursor. -/
theorem parse_type3_absent (b : BitBuffer) (hp : b.pos ≤ b.bits.length)
    {rest : List Bool} (h : b.bits.drop b.pos = false :: rest)
    (expected : Nat) :
    type34.parse_type3_generic b expected =
      some (.error .FieldNotPresent, b) := by
  have hmbit := check_peek_mbit_of_false b hp h
  simp only [type34.parse_type3_generic, hmbit]

/-- With a mismatched identifier the generic Type-3 decode reports an
absent field and does not move the cursor. -/
theorem parse_type3_wrong_tag (b : BitBuffer) (hp : b.pos ≤ b.bits.length)
    {tag4 rest : List Bool}
    (h : b.bits.drop b.pos = true :: (tag4 ++ rest)) (htag : tag4.length = 4)
    {expected : Nat} (hne : expected ≠ bitsToNat tag4) :
    type34.parse_type3_generic b expected =
      some (.error .FieldNotPresent, b) := by
  have hmbit := check_peek_mbit_of_true b hp h
  have hid := check_peek_id_mismatch b hp h htag hne
  simp only [type34.parse_type3_generic, hmbit, hid]

/-- Success path of the generic Type-4 header decode on a well-formed
header layout whose declared total length is at least 6. -/
theorem parse_type4_ok (b : BitBuffer) (hp : b.pos ≤ b.bits.length)
    {tag4 len11 cnt6 rest : List Bool}
    (h : b.bits.drop b.pos = true :: (tag4 ++ (len11 ++ (cnt6 ++ rest))))
    (htag : tag4.length = 4) (hlen : len11.length = 11)
    (hcnt : cnt6.length = 6) (h6 : 6 ≤ bitsToNat len11) :
    type34.parse_type4_header_generic b (bitsToNat tag4) =
      some (.ok (bitsToNat cnt6, bitsToNat len11 - 6), b.seek_rel 22) := by
  have hmbit := check_peek_mbit_of_true b hp h
  have hid := check_peek_id_of_suffix b hp h htag
  have h5 : b.bits.drop b.pos =
      (true :: tag4) ++ (len11 ++ (cnt6 ++ rest)) := by
    simpa using h
  have h5len : (true :: tag4).length = 5 := by simp [htag]
  have hb1suf : (b.seek_rel 5).bits.drop (b.seek_rel 5).pos =
      len11 ++ (cnt6 ++ rest) := by
    have := b.drop_seek_rel h5
    rwa [h5len] at this
  have hb1pos : (b.seek_rel 5).pos ≤ (b.seek_rel 5).bits.length := by
    have := b.seek_rel_pos_le hp h5
    rwa [h5len] at this
  have hrd11 : (b.seek_rel 5).read_bits 11 =
      (some (bitsToNat len11), b.seek_rel 16) := by
    have := (b.seek_rel 5).read_bits_of_suffix hb1pos hb1suf
    rwa [hlen, BitBuffer.seek_rel_seek_rel] at this
  have hb2suf : (b.seek_rel 16).bits.drop (b.seek_rel 16).pos =
      cnt6 ++ rest := by
    have := (b.seek_rel 5).drop_seek_rel hb1suf
    rwa [hlen, BitBuffer.seek_rel_seek_rel] at this
  have hb2pos : (b.seek_rel 16).pos ≤ (b.seek_rel 16).bits.length := by
    have := (b.seek_rel 5).seek_rel_pos_le hb1pos hb1suf
    rwa [hlen, BitBuffer.seek_rel_seek_rel] at this
  have hrdcnt : (b.seek_rel 16).read_bits 6 =
      (some (bitsToNat cnt6), b.seek_rel 22) := by
    have := (b.seek_rel 16).read_bits_of_suffix hb2pos hb2suf
    rwa [hcnt, BitBuffer.seek_rel_seek_rel] at this
  simp only [type34.parse_type4_header_generic, hmbit, hid, hrd11, hrdcnt]
  rw [if_neg (by omega)]

/-- Underflow path of the generic Type-4 header decode: a declared
total length below 6 reaches the panicking `usize` subtraction. -/
theorem parse_type4_underflow (b : BitBuffer) (hp : b.pos ≤ b.bits.length)
    {tag4 len11 cnt6 rest : List Bool}
    (h : b.bits.drop b.pos = true :: (tag4 ++ (len11 ++ (cnt6 ++ rest))))
    (htag : tag4.length = 4) (hlen : len11.length = 11)
    (hcnt : cnt6.length = 6) (h6 : bitsToNat len11 < 6) :
    type34.parse_type4_header_generic b (bitsToNat tag4) = none := by
  have hmbit := check_peek_mbit_of_true b hp h
  have hid := check_peek_id_of_suffix b hp h htag
  have h5 : b.bits.drop b.pos =
      (true :: tag4) ++ (len11 ++ (cnt6 ++ rest)) := by
    simpa using h
  have h5len : (true :: tag4).length = 5 := by simp [htag]
  have hb1suf : (b.seek_rel 5).bits.drop (b.seek_rel 5).pos =
      len11 ++ (cnt6 ++ rest) := by
    have := b.drop_seek_rel h5
    rwa [h5len] at this
  have hb1pos : (b.seek_rel 5).pos ≤ (b.seek_rel 5).bits.length := by
    have := b.seek_rel_pos_le hp h5
    rwa [h5len] at this
  have hrd11 : (b.seek_rel 5).read_bits 11 =
      (some (bitsToNat len11), b.seek_rel 16) := by
    have := (b.seek_rel 5).read_bits_of_suffix hb1pos hb1suf
    rwa [hlen, BitBuffer.seek_rel_seek_rel] at this
  have hb2suf : (b.seek_rel 16).bits.drop (b.seek_rel 16).pos =
      cnt6 ++ rest := by
    have := (b.seek_rel 5).drop_seek_rel hb1suf
    rwa [hlen, BitBuffer.seek_rel_seek_rel] at this
  have hb2pos : (b.seek_rel 16).pos ≤ (b.seek_rel 16).bits.length := by
    have := (b.seek_rel 5).seek_rel_pos_le hb1pos hb1suf
    rwa [hlen, BitBuffer.seek_rel_seek_rel] at this
  have hrdcnt : (b.seek_rel 16).read_bits 6 =
      (some (bitsToNat cnt6), b.seek_rel 22) := by
    have := (b.seek_rel 16).read_bits_of_suffix hb2pos hb2suf
    rwa [hcnt, BitBuffer.seek_rel_seek_rel] at this
  simp only [type34.parse_type4_header_generic, hmbit, hid, hrd11, hrdcnt]
  rw [if_pos (by omega)]

/-- C1: on a buffer whose next bits are an m-bit, a 4-bit tag, an
11-bit length `L` and at least `L` further bits, `parse_type3_generic`
returns `FieldNotPresent` without advancing when the m-bit is 0, and
when the m-bit is 1 and the tag matches it returns `Ok (L, payload)`
with the cursor advanced by `16 + L` bits. -/
theorem claim_C1_parse_type3_decode :
    (∀ (b : BitBuffer), b.pos ≤ b.bits.length →
      ∀ (rest : List Bool), b.bits.drop b.pos = false :: rest →
      ∀ expected : Nat,
        type34.parse_type3_generic b expected =
          some (.error .FieldNotPresent, b)) ∧
    (∀ (b : BitBuffer), b.pos ≤ b.bits.length →
      ∀ (tag4 len11 payload rest : List Bool),
        b.bits.drop b.pos = true :: (tag4 ++ (len11 ++ (payload ++ rest))) →
        tag4.length = 4 → len11.length = 11 →
        bitsToNat len11 = payload.length →
        type34.parse_type3_generic b (bitsToNat tag4) =
          some (.ok (payload.length, bitsToNat payload),
            b.seek_rel (16 + payload.length))) :=
  ⟨fun b hp _ h expected => parse_type3_absent b hp h expected,
   fun b hp _ _ _ _ h htag hlen hL => parse_type3_ok b hp h htag hlen hL⟩

/-- Witness for C1: an absent element (m-bit 0), and a present 2-bit
element with tag 5 and payload value 2, from concrete buffers. -/
theorem claim_C1_witness :
    type34.parse_type3_generic ⟨[false], 0⟩ 3 =
      some (.error .FieldNotPresent, ⟨[false], 0⟩) ∧
    type34.parse_type3_generic
      ⟨[true, false, true, false, true,
        false, false, false, false, false, false, false, false, false,
        true, false, true, false], 0⟩ 5 =
      some (.ok (2, 2),
        ⟨[true, false, true, false, true,
          false, false, false, false, false, false, false, false, false,
          true, false, true, false], 18⟩) :=
  ⟨claim_C1_parse_type3_decode.1 ⟨[false], 0⟩ (by decide) [] (by decide) 3,
   claim_C1_parse_type3_decode.2
     ⟨[true, false, true, false, true,
       false, false, false, false, false, false, false, false, false,
       true, false, true, false], 0⟩ (by decide)
     [false, true, false, true]
     [false, false, false, false, false, false, false, false, false,
      true, false]
     [true, false] [] (by decide) (by decide) (by decide) (by decide)⟩

/-- C2: against a buffer whose next element carries tag `tag_B`, a
`parse_type3_generic` call expecting a different `tag_A` returns
`FieldNotPresent` with the cursor at its original position, and the
subsequent call expecting `tag_B` on the same buffer succeeds. -/
theorem claim_C2_tag_mismatch_nondestructive :
    ∀ (b : BitBuffer), b.pos ≤ b.bits.length →
    ∀ (tag4 len11 payload rest : List Bool),
      b.bits.drop b.pos = true :: (tag4 ++ (len11 ++ (payload ++ rest))) →
      tag4.length = 4 → len11.length = 11 →
      bitsToNat len11 = payload.length →
      ∀ tagA : Nat, tagA ≠ bitsToNat tag4 →
        type34.parse_type3_generic b tagA =
          some (.error .FieldNotPresent, b) ∧
        type34.parse_type3_generic b (bitsToNat tag4) =
          some (.ok (payload.length, bitsToNat payload),
            b.seek_rel (16 + payload.length)) := by
  intro b hp tag4 len11 payload rest h htag hlen hL tagA hne
  refine ⟨?_, parse_type3_ok b hp h htag hlen hL⟩
  exact parse_type3_wrong_tag b hp h htag hne

/-- Witness for C2: a present 1-bit element tagged 9; expecting tag 3
is non-destructive and a retry expecting 9 succeeds. -/
theorem claim_C2_witness :
    type34.parse_type3_generic
      ⟨[true, true, false, false, true,
        false, false, false, false, false, false, false, false, false,
        false, true, true], 0⟩ 3 =
      some (.error .FieldNotPresent,
        ⟨[true, true, false, false, true,
          false, false, false, false, false, false, false, false, false,
          false, true, true], 0⟩) ∧
    type34.parse_type3_generic
      ⟨[true, true, false, false, true,
        false, false, false, false, false, false, false, false, false,
        false, true, true], 0⟩ 9 =
      some (.ok (1, 1),
        ⟨[true, true, false, false, true,
          false, false, false, false, false, false, false, false, false,
          false, true, true], 17⟩) :=
  claim_C2_tag_mismatch_nondestructive
    ⟨[true, true, false, false, true,
      false, false, false, false, false, false, false, false, false,
      false, true, true], 0⟩ (by decide)
    [true, false, false, true]
    [false, false, false, false, false, false, false, false, false,
     false, true]
    [true] [] (by decide) (by decide) (by decide) (by decide) 3 (by decide)

/-- C7: once the presence and tag checks have passed, buffer exhaustion
while reading the 11-bit length field or the declared payload yields
`OutOfBounds`, never `FieldNotPresent`. -/
theorem claim_C7_exhaustion_is_oob :
    (∀ (b : BitBuffer), b.pos ≤ b.bits.length →
      ∀ (tag4 rest : List Bool),
        b.bits.drop b.pos = true :: (tag4 ++ rest) → tag4.length = 4 →
        b.bits.length < b.pos + 16 →
        type34.parse_type3_generic b (bitsToNat tag4) =
          some (.error .OutOfBounds, b.seek_rel 5)) ∧
    (∀ (b : BitBuffer), b.pos ≤ b.bits.length →
      ∀ (tag4 len11 rest : List Bool),
        b.bits.drop b.pos = true :: (tag4 ++ (len11 ++ rest)) →
        tag4.length = 4 → len11.length = 11 →
        b.bits.length < b.pos + 16 + bitsToNat len11 →
        type34.parse_type3_generic b (bitsToNat tag4) =
          some (.error .OutOfBounds, b.seek_rel 16)) := by
  constructor
  · intro b hp tag4 rest h htag hshort
    have hmbit := check_peek_mbit_of_true b hp h
    have hid := check_peek_id_of_suffix b hp h htag
    have hrd : (b.seek_rel 5).read_bits 11 = (none, b.seek_rel 5) := by
      apply BitBuffer.read_bits_none
      show b.bits.length < b.pos + 5 + 11
      omega
    simp only [type34.parse_type3_generic, hmbit, hid, hrd]
  · intro b hp tag4 len11 rest h htag hlen hshort
    have hmbit := check_peek_mbit_of_true b hp h
    have hid := check_peek_id_of_suffix b hp h htag
    have h5 : b.bits.drop b.pos = (true :: tag4) ++ (len11 ++ rest) := by
      simpa using h
    have h5len : (true :: tag4).length = 5 := by simp [htag]
    have hb1suf : (b.seek_rel 5).bits.drop (b.seek_rel 5).pos =
        len11 ++ rest := by
      have := b.drop_seek_rel h5
      rwa [h5len] at this
    have hb1pos : (b.seek_rel 5).pos ≤ (b.seek_rel 5).bits.length := by
      have := b.seek_rel_pos_le hp h5
      rwa [h5len] at this
    have hrd11 : (b.seek_rel 5).read_bits 11 =
        (some (bitsToNat len11), b.seek_rel 16) := by
      have := (b.seek_rel 5).read_bits_of_suffix hb1pos hb1suf
      rwa [hlen, BitBuffer.seek_rel_seek_rel] at this
    have hrdpay : (b.seek_rel 16).read_bits (bitsToNat len11) =
        (none, b.seek_rel 16) := by
      apply BitBuffer.read_bits_none
      show b.bits.length < b.pos + 16 + bitsToNat len11
      omega
    simp only [type34.parse_type3_generic, hmbit, hid, hrd11, hrdpay]

/-- Witness for C7: tag 2 matches but only the 5 lookahead bits exist
(length field exhausted), and tag 6 matches with length 20 but only 4
payload bits exist (payload exhausted); both yield `OutOfBounds`. -/
theorem claim_C7_witness :
    type34.parse_type3_generic ⟨[true, false, false, true, false], 0⟩ 2 =
      some (.error .OutOfBounds,
        ⟨[true, false, false, true, false], 5⟩) ∧
    type34.parse_type3_generic
      ⟨[true, false, true, true, false,
        false, false, false, false, false, false, false, true, false,
        true, false, false, true, true, false], 0⟩ 6 =
      some (.error .OutOfBounds,
        ⟨[true, false, true, true, false,
          false, false, false, false, false, false, false, true, false,
          true, false, false, true, true, false], 16⟩) :=
  ⟨claim_C7_exhaustion_is_oob.1
     ⟨[true, false, false, true, false], 0⟩ (by decide)
     [false, false, true, false] [] (by decide) (by decide) (by decide),
   claim_C7_exhaustion_is_oob.2
     ⟨[true, false, true, true, false,
       false, false, false, false, false, false, false, true, false,
       true, false, false, true, true, false], 0⟩ (by decide)
     [false, true, true, false]
     [false, false, false, false, false, false, false, true, false,
      true, false]
     [false, true, true, false] (by decide) (by decide) (by decide)
     (by decide)⟩

/-- C3 counterexample: a present Type-4 header with matching tag 1
whose declared 11-bit total length is 0 does not return
`Ok((count, total_length - 6))`: the `usize` subtraction `len_bits - 6`
underflows, a debug-build panic (`none` in this model). -/
theorem claim_C3_counterexample :
    type34.parse_type4_header_generic
      ⟨[true, false, false, false, true,
        false, false, false, false, false, false, false, false, false,
        false, false, false, false, false, false, false, false], 0⟩ 1 =
      none := by
  rfl

/-- C3 (amended): when additionally the declared total length is at
least 6, `parse_type4_header_generic` advances 5 bits, reads the 11-bit
total length and the 6-bit count, and returns
`Ok((count, total_length - 6))` with the cursor advanced 22 bits. -/
theorem claim_C3_parse_type4_header :
    ∀ (b : BitBuffer), b.pos ≤ b.bits.length →
    ∀ (tag4 len11 cnt6 rest : List Bool),
      b.bits.drop b.pos = true :: (tag4 ++ (len11 ++ (cnt6 ++ rest))) →
      tag4.length = 4 → len11.length = 11 → cnt6.length = 6 →
      6 ≤ bitsToNat len11 →
      type34.parse_type4_header_generic b (bitsToNat tag4) =
        some (.ok (bitsToNat cnt6, bitsToNat len11 - 6),
          b.seek_rel 22) :=
  fun b hp _ _ _ _ h htag hlen hcnt h6 =>
    parse_type4_ok b hp h htag hlen hcnt h6

/-- Witness for C3: a Type-4 header tagged 6 with declared total length
8 and count 2 decodes to `Ok((2, 2))` with the cursor at bit 22. -/
theorem claim_C3_witness :
    type34.parse_type4_header_generic
      ⟨[true, false, true, true, false,
        false, false, false, false, false, false, false, true, false,
        false, false, false, false, false, false, true, false,
        true, false], 0⟩ 6 =
      some (.ok (2, 2),
        ⟨[true, false, true, true, false,
          false, false, false, false, false, false, false, true, false,
          false, false, false, false, false, false, true, false,
          true, false], 22⟩) :=
  claim_C3_parse_type4_header
    ⟨[true, false, true, true, false,
      false, false, false, false, false, false, false, true, false,
      false, false, false, false, false, false, true, false,
      true, false], 0⟩ (by decide)
    [false, true, true, false]
    [false, false, false, false, false, false, false, true, false,
     false, false]
    [false, false, false, false, true, false]
    [true, false] (by decide) (by decide) (by decide) (by decide)
    (by decide)

/-- C4: evaluation at the failing wire input. A buffer carrying m-bit
1, matching tag 0, declared 11-bit total length 3 and a 6-bit count
reaches the `usize` subtraction `len_bits - 6` with `len_bits = 3`,
which underflows: the parse panics (`none`) instead of returning a
`Result`, contradicting the propagation policy that no codec function
panics on malformed wire data. -/
theorem claim_C4_type4_len_underflow_panics :
    type34.parse_type4_header_generic
      ⟨[true, false, false, false, false,
        false, false, false, false, false, false, false, false, false,
        true, true, false, false, false, false, false, false], 0⟩ 0 =
      none := by
  rfl

/-- C5: Type-2 decode and encode are mutual inverses. Writing any
`Option` value whose `Some` payload fits in `width` bits at the end of
a buffer and then parsing from the written position returns `Ok` of the
same value: a 1 p-bit is followed by the `width` payload bits, a 0
p-bit stands alone and the parse consumes no further bits. -/
theorem claim_C5_type2_roundtrip :
    ∀ (b : BitBuffer), b.pos = b.bits.length →
    ∀ (v : Option Nat) (width : Nat) (f : String),
      (∀ x ∈ v, x < 2 ^ width) →
      type2.parse (type2.write b v width) width f =
        (.ok v, (type2.write b v width).seek_rel
          (1 + match v with | some _ => width | none => 0)) := by
  intro b hpos v width f hv
  cases v with
  | none =>
    have hbw : (type2.write b none width).bits = b.bits ++ [false] := by
      show b.bits ++ [0 % 2 == 1] = _
      simp
    have hbwpos : (type2.write b none width).pos = b.pos := rfl
    have hsuf : (type2.write b none width).bits.drop
        (type2.write b none width).pos = [false] ++ [] := by
      rw [hbw, hbwpos, hpos]
      simp [List.drop_left b.bits [false]]
    have hple : (type2.write b none width).pos ≤
        (type2.write b none width).bits.length := by
      rw [hbw, hbwpos, hpos, List.length_append]
      omega
    have hrd1 : (type2.write b none width).read_field 1 (r"pbit") =
        (.ok 0, (type2.write b none width).seek_rel 1) := by
      have := (type2.write b none width).read_field_of_suffix hple
        hsuf (r"pbit")
      simpa [bitsToNat] using this
    have hpb : delimiters.read_pbit (type2.write b none width) =
        (.ok false, (type2.write b none width).seek_rel 1) := by
      simp [delimiters.read_pbit, hrd1]
    simp only [type2.parse, hpb]
  | some x =>
    have hx : x < 2 ^ width := hv x rfl
    have hbw : (type2.write b (some x) width).bits =
        b.bits ++ ([true] ++ natToBits width x) := by
      show (b.bits ++ [1 % 2 == 1]) ++ natToBits width x = _
      simp
    have hbwpos : (type2.write b (some x) width).pos = b.pos := rfl
    have hsuf : (type2.write b (some x) width).bits.drop
        (type2.write b (some x) width).pos =
        [true] ++ natToBits width x := by
      rw [hbw, hbwpos, hpos]
      exact List.drop_left b.bits _
    have hple : (type2.write b (some x) width).pos ≤
        (type2.write b (some x) width).bits.length := by
      rw [hbw, hbwpos, hpos, List.length_append]
      omega
    have hrd1 : (type2.write b (some x) width).read_field 1 (r"pbit") =
        (.ok 1, (type2.write b (some x) width).seek_rel 1) := by
      have := (type2.write b (some x) width).read_field_of_suffix hple
        hsuf (r"pbit")
      simpa [bitsToNat] using this
    have hpb : delimiters.read_pbit (type2.write b (some x) width) =
        (.ok true, (type2.write b (some x) width).seek_rel 1) := by
      simp [delimiters.read_pbit, hrd1]
    have hsuf1 : ((type2.write b (some x) width).seek_rel 1).bits.drop
        ((type2.write b (some x) width).seek_rel 1).pos =
        natToBits width x ++ [] := by
      have := (type2.write b (some x) width).drop_seek_rel hsuf
      simpa using this
    have hple1 : ((type2.write b (some x) width).seek_rel 1).pos ≤
        ((type2.write b (some x) width).seek_rel 1).bits.length := by
      have := (type2.write b (some x) width).seek_rel_pos_le hple hsuf
      simpa using this
    have hrdw : ((type2.write b (some x) width).seek_rel 1).read_field
        width f =
        (.ok x, (type2.write b (some x) width).seek_rel (1 + width)) := by
      have := ((type2.write b (some x) width).seek_rel 1).read_field_of_suffix
        hple1 hsuf1 f
      rw [natToBits_length, bitsToNat_natToBits_of_lt hx,
        BitBuffer.seek_rel_seek_rel] at this
      exact this
    simp only [type2.parse, hpb, hrdw]

/-- Witness for C5: round-trips of `Some 5` in 3 bits and of `None`
from the empty buffer. -/
theorem claim_C5_witness :
    type2.parse (type2.write ⟨[], 0⟩ (some 5) 3) 3 (r"f") =
      (.ok (some 5), ⟨[true, true, false, true], 4⟩) ∧
    type2.parse (type2.write ⟨[], 0⟩ none 3) 3 (r"g") =
      (.ok none, ⟨[false], 1⟩) :=
  ⟨claim_C5_type2_roundtrip ⟨[], 0⟩ (by decide) (some 5) 3 (r"f")
     (by decide),
   claim_C5_type2_roundtrip ⟨[], 0⟩ (by decide) none 3 (r"g")
     (by decide)⟩

/-- C6: in any parse whose body leaves the o-bit flag set and whose
next unread bit (the bit remaining after the last recognized optional
element) is 1, `from_bitbuf` returns `InvalidObitValue` and never a
successfully decoded PDU; proved for both embedded parsers that read
the trailing delimiter. -/
theorem claim_C6_trailing_one_rejected :
    (∀ (b b' : BitBuffer)
      (pdu : UAttachDetachGroupIdentityAcknowledgement),
      UAttachDetachGroupIdentityAcknowledgement.parse_body b =
        some (.ok (pdu, true), b') →
      b'.peek_bits 1 = some 1 →
      UAttachDetachGroupIdentityAcknowledgement.from_bitbuf b =
        some (.error .InvalidObitValue, b'.seek_rel 1)) ∧
    (∀ (b b' : BitBuffer)
      (pdu : DAttachDetachGroupIdentityAcknowledgement),
      DAttachDetachGroupIdentityAcknowledgement.parse_body b =
        some (.ok (pdu, true), b') →
      b'.peek_bits 1 = some 1 →
      DAttachDetachGroupIdentityAcknowledgement.from_bitbuf b =
        some (.error .InvalidObitValue, b'.seek_rel 1)) := by
  constructor
  · intro b b' pdu hbody hpk
    have hrd : b'.read_field 1 (r"trailing_obit") =
        (.ok 1, b'.seek_rel 1) := by
      unfold BitBuffer.read_field
      rw [hpk]
    simp only [UAttachDetachGroupIdentityAcknowledgement.from_bitbuf,
      hbody, if_true, hrd]
    rfl
  · intro b b' pdu hbody hpk
    have hrd : b'.read_field 1 (r"trailing_obit") =
        (.ok 1, b'.seek_rel 1) := by
      unfold BitBuffer.read_field
      rw [hpk]
    simp only [DAttachDetachGroupIdentityAcknowledgement.from_bitbuf,
      hbody, if_true, hrd]
    rfl

/-- Witness for C6: two concrete buffers whose body parses succeed with
the o-bit set and a trailing 1 left over; both parsers reject with
`InvalidObitValue`. -/
theorem claim_C6_witness :
    UAttachDetachGroupIdentityAcknowledgement.from_bitbuf
      ⟨[true, false, true, false, true, true, true], 0⟩ =
      some (.error .InvalidObitValue,
        ⟨[true, false, true, false, true, true, true], 7⟩) ∧
    DAttachDetachGroupIdentityAcknowledgement.from_bitbuf
      ⟨[true, false, true, true, false, false, true, true], 0⟩ =
      some (.error .InvalidObitValue,
        ⟨[true, false, true, true, false, false, true, true], 8⟩) :=
  ⟨claim_C6_trailing_one_rejected.1
     ⟨[true, false, true, false, true, true, true], 0⟩
     ⟨[true, false, true, false, true, true, true], 6⟩
     ⟨true, none, none⟩ rfl (by decide),
   claim_C6_trailing_one_rejected.2
     ⟨[true, false, true, true, false, false, true, true], 0⟩
     ⟨[true, false, true, true, false, false, true, true], 7⟩
     ⟨0, false, none, none, none⟩ rfl (by decide)⟩

/-- C8: the repository's lab fixture decodes without error to a PDU
whose Type-4 container is tagged `0x7` with declared 11-bit length 38
and exactly one sub-element, and re-encoding that PDU reproduces the
identical bitstring. -/
theorem claim_C8_fixture_roundtrip :
    DAttachDetachGroupIdentityAcknowledgement.from_bitbuf
      ⟨fixtureBits, 0⟩ = some (.ok fixturePdu, ⟨fixtureBits, 62⟩) ∧
    fixturePdu.group_identity_downlink.map List.length = some 1 ∧
    BitBuffer.peek_bits_posoffset ⟨fixtureBits, 0⟩ 8 4 =
      some MmType34ElemIdDl_GroupIdentityDownlink ∧
    BitBuffer.peek_bits_posoffset ⟨fixtureBits, 0⟩ 12 11 = some 38 ∧
    DAttachDetachGroupIdentityAcknowledgement.to_bitbuf fixturePdu
      ⟨[], 0⟩ = ⟨fixtureBits, 0⟩ :=
  ⟨rfl, rfl, by decide, by decide, by decide⟩

/-- C9: whenever at least `w` bits remain, `peek_bits w` returns the
same value that an immediately following `read_field w _` returns, the
peek itself changes nothing (the buffer value fed to the read is the
original one), and the cursor after the sequence is the original cursor
advanced by `w`, exactly as after a single `read_field w _`. -/
theorem claim_C9_peek_read_agreement :
    ∀ (b : BitBuffer) (w : Nat) (f : String),
      b.pos + w ≤ b.bits.length →
      ∃ v, b.peek_bits w = some v ∧
        b.read_field w f = (.ok v, b.seek_rel w) ∧
        (b.seek_rel w).bits = b.bits ∧
        (b.seek_rel w).pos = b.pos + w := by
  intro b w f h
  refine ⟨bitsToNat ((b.bits.drop b.pos).take w), ?_, ?_, rfl, rfl⟩
  · unfold BitBuffer.peek_bits
    rw [if_pos h]
  · unfold BitBuffer.read_field BitBuffer.peek_bits
    rw [if_pos h]

/-- Witness for C9 at a concrete three-bit buffer with the cursor on the
second bit. -/
theorem claim_C9_witness :
    ∃ v, BitBuffer.peek_bits ⟨[true, false, true], 1⟩ 2 = some v ∧
      BitBuffer.read_field ⟨[true, false, true], 1⟩ 2 (r"f") =
        (.ok v, BitBuffer.seek_rel ⟨[true, false, true], 1⟩ 2) ∧
      (BitBuffer.seek_rel ⟨[true, false, true], 1⟩ 2).bits =
        [true, false, true] ∧
      (BitBuffer.seek_rel ⟨[true, false, true], 1⟩ 2).pos = 1 + 2 :=
  claim_C9_peek_read_agreement ⟨[true, false, true], 1⟩ 2 (r"f")
    (by decide)

/-- C10: `check_peek_mbit` never reaches its catch-all `panic!()` arm,
its result is always one of `Ok(true)`, `Err(FieldNotPresent)` and
`Err(OutOfBounds)`, and with zero bits remaining it is
`Err(OutOfBounds)`, not `Err(FieldNotPresent)`. -/
theorem claim_C10_check_peek_mbit_total :
    ∀ b : BitBuffer,
      type34.check_peek_mbit b ≠ none ∧
      (type34.check_peek_mbit b = some (.ok true) ∨
       type34.check_peek_mbit b = some (.error .FieldNotPresent) ∨
       type34.check_peek_mbit b = some (.error .OutOfBounds)) ∧
      (b.remaining = 0 →
        type34.check_peek_mbit b = some (.error .OutOfBounds)) := by
  intro b
  rcases hpk : b.peek_bits 1 with _ | v
  · refine ⟨by simp [type34.check_peek_mbit, hpk], ?_, ?_⟩
    · right; right
      simp [type34.check_peek_mbit, hpk]
    · intro _
      simp [type34.check_peek_mbit, hpk]
  · have hv : v < 2 := by
      have := b.peek_bits_lt hpk
      simpa using this
    have hrem : b.remaining ≠ 0 := by
      intro h0
      have : b.peek_bits 1 = none := by
        apply b.peek_bits_none
        unfold BitBuffer.remaining at h0
        omega
      rw [this] at hpk
      cases hpk
    match v, hv with
    | 0, _ =>
      refine ⟨by simp [type34.check_peek_mbit, hpk], ?_, fun h0 => absurd h0 hrem⟩
      right; left
      simp [type34.check_peek_mbit, hpk]
    | 1, _ =>
      refine ⟨by simp [type34.check_peek_mbit, hpk], ?_, fun h0 => absurd h0 hrem⟩
      left
      simp [type34.check_peek_mbit, hpk]

/-- Witness for C10 at the empty buffer, where zero bits remain. -/
theorem claim_C10_witness :
    type34.check_peek_mbit ⟨[], 0⟩ ≠ none ∧
    type34.check_peek_mbit ⟨[], 0⟩ = some (.error .OutOfBounds) :=
  ⟨(claim_C10_check_peek_mbit_total ⟨[], 0⟩).1,
    (claim_C10_check_peek_mbit_total ⟨[], 0⟩).2.2 (by decide)⟩

end Tetra
